import Mathlib

/-!
Shallow embedding of the core of a binarized-neural-network continual-learning
repository: the GPU-resident data loader (batch iteration with a cursor and a
drawn index permutation, pixel-permutation tasks, class-incremental splitting),
the metaplastic Adam optimizer (moment updates, AMS denominator, the sign-aware
metaplastic consolidation rule), and the Bayesian trainer's construction check
and Monte-Carlo / MAP prediction paths.

Conventions: tensors are lists; an element-wise torch operation is modelled on
one element or as a `List.map`; floats are exact rationals where the code only
compares and copies them, and reals where `sqrt`/`tanh` appear; randomness
(the shuffle permutation, Bernoulli draws) is an explicit parameter.
-/

/-! ### Data model: `GPUTensorDataset` and `GPUDataLoader` (src/dataloader/gpuLoading.py)

`GPUTensorDataset` holds a `data` tensor and a `targets` tensor; `len(dataset)`
is `len(data)`.  Rows of `data` are modelled already flattened (the source only
ever reshapes through `.view`, which preserves the row contents).

`GPUDataLoader` holds the dataset, a (mutable) `batch_size`, the `shuffle` and
`drop_last` flags, the traversal cursor `index`, and the lazily created
`reference` snapshot used by `permute_dataset` / `class_incremental_dataset`
(absent until first use, hence an `Option`). -/

structure GPUTensorDataset where
  data : List (List ℚ)
  targets : List Nat
deriving Repr, DecidableEq

structure GPUDataLoader where
  dataset : GPUTensorDataset
  batchSize : Nat
  shuffle : Bool
  dropLast : Bool
  index : Nat
  reference : Option (List (List ℚ))
deriving Repr, DecidableEq

def datasetLen (l : GPUDataLoader) : Nat :=
  l.dataset.data.length

/-- One call of `GPUDataLoader.__next__` under the drawn index permutation
`perm`.  A batch `dataset[perm[index:index+batch_size]]` is represented by its
index slice `perm[index:index+batch_size]` (the gather of rows at those
indices).  Faithful to the source order of checks: stop when the cursor has
reached the dataset length; stop when fewer than `batch_size` samples remain
and `drop_last` is set; otherwise, when fewer than `batch_size` samples remain
(and `drop_last` is not set), `self.batch_size` itself is overwritten with the
remainder before slicing. -/
def loaderNext (perm : List Nat) (s : GPUDataLoader) : Option (List Nat × GPUDataLoader) :=
  if datasetLen s ≤ s.index then none
  else if datasetLen s < s.index + s.batchSize ∧ s.dropLast then none
  else
    let bs := if datasetLen s < s.index + s.batchSize then datasetLen s - s.index else s.batchSize
    some ((perm.drop s.index).take bs, { s with index := s.index + bs, batchSize := bs })

/-- Fuelled iteration of `loaderNext`, collecting the yielded batches and the
final loader state.  Every yielded batch is nonempty when `batch_size ≥ 1`, so
`datasetLen + 1` fuel is enough for a full traversal. -/
def runLoader (perm : List Nat) : Nat → GPUDataLoader → List (List Nat) × GPUDataLoader
  | 0, s => ([], s)
  | fuel + 1, s =>
    match loaderNext perm s with
    | none => ([], s)
    | some (b, s') =>
      let r := runLoader perm fuel s'
      (b :: r.1, r.2)

/-- `GPUDataLoader.__iter__`: reset the cursor to 0 (the permutation is drawn
here in the source and is the `perm` argument of `traverseLoader`). -/
def iterLoader (s : GPUDataLoader) : GPUDataLoader :=
  { s with index := 0 }

/-- One full traversal (`iter` then repeated `next` until `StopIteration`):
the list of yielded batches and the loader state afterwards. -/
def traverseLoader (perm : List Nat) (s : GPUDataLoader) : List (List Nat) × GPUDataLoader :=
  runLoader perm (datasetLen s + 1) (iterLoader s)

/-- `GPUDataLoader.__len__`: `len(self.dataset) // self.batch_size`. -/
def loaderLen (l : GPUDataLoader) : Nat :=
  datasetLen l / l.batchSize

/-- Pixel permutation of one (flattened) sample row:
`data.view(N, -1)[:, perm]` gives row `i` of the result the `k`-th entry
`row_i[perm[k]]`. -/
def applyPixelPerm (perm : List Nat) (row : List ℚ) : List ℚ :=
  perm.map (fun j => row.getD j 0)

/-- One step of `GPUDataLoader.permute_dataset`: restore `dataset.data` from
`reference` when a reference exists, snapshot the restored data as the new
`reference`, then apply the pixel permutation column-wise to every sample. -/
def permuteStep (perm : List Nat) (l : GPUDataLoader) : GPUDataLoader :=
  let restored := match l.reference with
    | some r => r
    | none => l.dataset.data
  { l with
    dataset := { l.dataset with data := restored.map (applyPixelPerm perm) }
    reference := some restored }

/-- `GPUDataLoader.permute_dataset(permutations)`: the lazily yielded sequence
of loader states, one `permuteStep` per permutation (the generator yields
`self` after each in-place transform). -/
def permuteDataset (perms : List (List Nat)) (l : GPUDataLoader) : List GPUDataLoader :=
  match perms with
  | [] => []
  | p :: ps =>
    let l' := permuteStep p l
    l' :: permuteDataset ps l'

/-- One step of `GPUDataLoader.class_incremental_dataset`: the source restores
`dataset.data` from `reference` when a reference exists and snapshots the new
`reference`, but the body that would select the samples of the current task is
missing (only a comment stands where the selection should happen), so the
yielded loader still holds the whole dataset. -/
def classIncrementalStep (l : GPUDataLoader) : GPUDataLoader :=
  let restored := match l.reference with
    | some r => r
    | none => l.dataset.data
  { l with
    dataset := { l.dataset with data := restored }
    reference := some restored }

/-- `GPUDataLoader.class_incremental_dataset(n_tasks)`: the lazily yielded
sequence of loader states, one `classIncrementalStep` per task index. -/
def classIncrementalDataset (n : Nat) (l : GPUDataLoader) : List GPUDataLoader :=
  match n with
  | 0 => []
  | n + 1 =>
    let l' := classIncrementalStep l
    l' :: classIncrementalDataset n l'

/-! ### Metaplastic Adam optimizer (src/optimizer/metaplasticadam.py)

Per-parameter optimizer state `{step, exp_avg, exp_avg_sq, max_exp_avg_sq}`,
zero-initialized on the first sighting of a gradient (`max_exp_avg_sq` is only
allocated — and only updated — when `amsgrad` is set; carrying the field with
its zero initial value is harmless for the non-AMS case since it is then never
read nor written).  All tensor operations in `step()` are element-wise, so one
element is modelled; `dim` is the dimensionality of the enclosing parameter
tensor, which selects the bias path (`dim == 1`) or the metaplastic path. -/

structure AdamParamState where
  step : Nat
  expAvg : ℝ
  expAvgSq : ℝ
  maxExpAvgSq : ℝ

/-- State initialization: `step = 0`, zero moments. -/
def initAdamState : AdamParamState := ⟨0, 0, 0, 0⟩

/-- Moment bookkeeping of one `step()` call on one element of a parameter,
given the (already weight-decayed) gradient element `g`:
`exp_avg ← β1·exp_avg + (1−β1)·g`, `exp_avg_sq ← β2·exp_avg_sq + (1−β2)·g·g`,
the step counter is incremented, and under AMS
`max_exp_avg_sq ← max(max_exp_avg_sq, exp_avg_sq)` (with the new
`exp_avg_sq`). -/
noncomputable def momentUpdate (amsgrad : Bool) (β1 β2 g : ℝ) (s : AdamParamState) :
    AdamParamState :=
  let ea := β1 * s.expAvg + (1 - β1) * g
  let eas := β2 * s.expAvgSq + (1 - β2) * (g * g)
  { step := s.step + 1
    expAvg := ea
    expAvgSq := eas
    maxExpAvgSq := if amsgrad then max s.maxExpAvgSq eas else s.maxExpAvgSq }

/-- The denominator of the update: `sqrt(max_exp_avg_sq) + eps` under AMS
(the source takes the running max first, so this is
`sqrt(max(old max, exp_avg_sq)) + eps`), else `sqrt(exp_avg_sq) + eps`. -/
noncomputable def denomOf (amsgrad : Bool) (eps : ℝ) (s : AdamParamState) : ℝ :=
  if amsgrad then Real.sqrt s.maxExpAvgSq + eps else Real.sqrt s.expAvgSq + eps

/-- Bias-corrected step size `lr · sqrt(1 − β2^t) / (1 − β1^t)` at step
count `t`. -/
noncomputable def stepSizeOf (lr β1 β2 : ℝ) (t : Nat) : ℝ :=
  lr * Real.sqrt (1 - β2 ^ t) / (1 - β1 ^ t)

/-- The momentum actually applied on the metaplastic (multi-dimensional) path:
where `sign(param)·exp_avg > 0` (consolidation) the momentum is
`(1 − tanh(metaplasticity·|param|)²)·exp_avg`, elsewhere the raw `exp_avg`. -/
noncomputable def appliedMomentum (metaplasticity p ea : ℝ) : ℝ :=
  if 0 < Real.sign p * ea then (1 - Real.tanh (metaplasticity * |p|) ^ 2) * ea else ea

/-- The parameter update of one `step()` call on one element: the bias path
(`dim == 1`) applies `p ← p − step_size·exp_avg/denom` with the raw momentum;
any other dimensionality applies the same formula with `appliedMomentum`. -/
noncomputable def metaplasticUpdate (dim : Nat) (metaplasticity stepSize denom p ea : ℝ) : ℝ :=
  if dim = 1 then p - stepSize * ea / denom
  else p - stepSize * appliedMomentum metaplasticity p ea / denom

/-- One full `step()` call on one element of one (dense-gradient) parameter:
weight decay folds the parameter into the gradient when nonzero, then the
moments are updated, then the denominator, bias-corrected step size and the
metaplastic parameter update are computed from the updated state.  Returns the
new parameter element and the new optimizer state. -/
noncomputable def stepElem (dim : Nat) (amsgrad : Bool)
    (lr β1 β2 eps weightDecay metaplasticity g p : ℝ) (s : AdamParamState) :
    ℝ × AdamParamState :=
  let g' := if weightDecay = 0 then g else g + weightDecay * p
  let s' := momentUpdate amsgrad β1 β2 g' s
  let d := denomOf amsgrad eps s'
  let ss := stepSizeOf lr β1 β2 s'.step
  (metaplasticUpdate dim metaplasticity ss d p s'.expAvg, s')

/-- Hyperparameter validation of `MetaplasticAdam.__init__`, in source order:
`lr`, then `eps`, then `betas[0]`, then `betas[1]`; the first failing range
check raises, otherwise construction proceeds.  Hyperparameters are exact
rationals (the constructor only compares them). -/
def metaplasticAdamInit (lr : ℚ) (β1 β2 : ℚ) (eps : ℚ) : Except String Unit :=
  if ¬ 0 ≤ lr then Except.error "Invalid learning rate"
  else if ¬ 0 ≤ eps then Except.error "Invalid epsilon value"
  else if ¬ (0 ≤ β1 ∧ β1 < 1) then Except.error "Invalid beta parameter at index 0"
  else if ¬ (0 ≤ β2 ∧ β2 < 1) then Except.error "Invalid beta parameter at index 1"
  else Except.ok ()

/-- Whether `MetaplasticAdam.__init__` succeeds. -/
def metaplasticAdamInitOk (lr : ℚ) (β1 β2 : ℚ) (eps : ℚ) : Bool :=
  match metaplasticAdamInit lr β1 β2 eps with
  | Except.ok _ => true
  | Except.error _ => false

/-! ### Bayesian trainer (src/trainer/bayesTrainer.py)

`BayesTrainer.__init__` checks for `test_mcmc_samples` in the
`training_parameters` mapping before anything else (in particular before the
base-class initialization); absence raises a `ValueError`, presence stores the
value and lets construction proceed.  The mapping is modelled as an
association list. -/

def bayesTrainerInit (trainingParameters : List (String × Nat)) : Except String Nat :=
  match trainingParameters.lookup "test_mcmc_samples" with
  | some v => Except.ok v
  | none => Except.error "BayesTrainer needs test_mcmc_samples to be defined in training_parameters"

/-- `BayesTrainer.predict(inputs, n_samples)`.  The model forward pass is an
abstract collaborator `F` taking the substituted parameter vector and the
inputs; `lambdaSamples` are the `n_samples` Bernoulli draws from
`sigmoid(2·lambda)` (randomness made explicit).  The `noise` list is the draws
when `n_samples > 0`; when the loop produced nothing (`n_samples == 0`) it is
the single deterministic vector `where(mu ≤ 0, 0, 1)`.  Each noise vector `n`
is turned into the binarized parameter vector `2·n − 1` and substituted into
the model for one forward pass (`monte_carlo_prediction`), giving one
prediction per noise vector.  Posterior state and predictions are exact
rationals (this path only compares, scales and shifts them). -/
def bayesPredict (F : List ℚ → List ℚ → List ℚ) (lambdaSamples : List (List ℚ))
    (mu inputs : List ℚ) (nSamples : Nat) : List (List ℚ) :=
  let noise := if nSamples = 0
    then [mu.map (fun m => if m ≤ 0 then (0 : ℚ) else 1)]
    else lambdaSamples
  noise.map (fun nv => F (nv.map (fun x => 2 * x - 1)) inputs)

/-! ### Traversal lemmas for the batch iterator -/

theorem loaderNext_stop (perm : List Nat) (s : GPUDataLoader) (h : datasetLen s ≤ s.index) :
    loaderNext perm s = none := by
  simp [loaderNext, h]

theorem loaderNext_dropStop (perm : List Nat) (s : GPUDataLoader)
    (h1 : datasetLen s < s.index + s.batchSize) (h2 : s.dropLast = true)
    (h3 : s.index < datasetLen s) :
    loaderNext perm s = none := by
  simp [loaderNext, h1, h2, not_le.2 h3]

theorem loaderNext_full (perm : List Nat) (s : GPUDataLoader)
    (h1 : s.index + s.batchSize ≤ datasetLen s) (h2 : s.index < datasetLen s) :
    loaderNext perm s = some ((perm.drop s.index).take s.batchSize,
      { s with index := s.index + s.batchSize }) := by
  simp [loaderNext, not_le.2 h2, not_lt.2 h1]

theorem loaderNext_shrink (perm : List Nat) (s : GPUDataLoader)
    (h1 : datasetLen s < s.index + s.batchSize) (h2 : s.dropLast = false)
    (h3 : s.index < datasetLen s) :
    loaderNext perm s = some ((perm.drop s.index).take (datasetLen s - s.index),
      { s with index := s.index + (datasetLen s - s.index),
               batchSize := datasetLen s - s.index }) := by
  simp [loaderNext, not_le.2 h3, h1, h2]

theorem runLoader_none (perm : List Nat) (fuel : Nat) (s : GPUDataLoader)
    (h : loaderNext perm s = none) :
    runLoader perm fuel s = ([], s) := by
  cases fuel <;> simp [runLoader, h]

theorem runLoader_some (perm : List Nat) (fuel : Nat) (s : GPUDataLoader)
    (b : List Nat) (s' : GPUDataLoader) (h : loaderNext perm s = some (b, s')) :
    runLoader perm (fuel + 1) s
      = (b :: (runLoader perm fuel s').1, (runLoader perm fuel s').2) := by
  simp [runLoader, h]

theorem batchFun_shift (perm : List Nat) (i b c : Nat) :
    (fun k => (perm.drop (i + (k + 1) * b)).take c)
      = (fun k => (perm.drop (i + b + k * b)).take c) := by
  funext k
  congr 2
  ring_nf

theorem range_map_succ_shift (f : Nat → List Nat) (q : Nat) :
    (List.range (q + 1)).map f = f 0 :: (List.range q).map (fun k => f (k + 1)) := by
  rw [List.range_succ_eq_map, List.map_cons, List.map_map]
  rfl

/-- A traversal with `drop_last` unset, starting at cursor `i` with
`b·q + r` samples remaining (`0 < r < b`), yields `q` full batches followed by
one shrunk batch of size `r`, leaves the cursor at the dataset length — and
permanently overwrites `batch_size` with `r`. -/
theorem runLoader_noDrop (perm : List Nat) (ds : GPUTensorDataset) (sh : Bool)
    (ref : Option (List (List ℚ))) (b r : Nat) (hr : 0 < r) (hrb : r < b) :
    ∀ q i fuel, ds.data.length - i = b * q + r → q + 2 ≤ fuel →
      runLoader perm fuel ⟨ds, b, sh, false, i, ref⟩
        = ((List.range q).map (fun k => (perm.drop (i + k * b)).take b)
             ++ [(perm.drop (i + q * b)).take r],
           ⟨ds, r, sh, false, ds.data.length, ref⟩) := by
  intro q
  induction q with
  | zero =>
    intro i fuel h hf
    obtain ⟨f, rfl⟩ : ∃ f, fuel = f + 2 := ⟨fuel - 2, by omega⟩
    simp only [Nat.mul_zero, Nat.zero_add] at h
    have h1 := loaderNext_shrink perm ⟨ds, b, sh, false, i, ref⟩
      (show ds.data.length < i + b by omega) rfl
      (show i < ds.data.length by omega)
    dsimp only [datasetLen] at h1
    rw [h] at h1
    rw [runLoader_some _ _ _ _ _ h1,
        runLoader_none _ _ _ (loaderNext_stop perm ⟨ds, r, sh, false, i + r, ref⟩
          (show ds.data.length ≤ i + r by omega))]
    refine Prod.ext ?_ ?_
    · show [(perm.drop i).take r] = _
      simp
    · show GPUDataLoader.mk ds r sh false (i + r) ref = _
      congr 1
      omega
  | succ q ih =>
    intro i fuel h hf
    obtain ⟨f, rfl⟩ : ∃ f, fuel = f + 1 := ⟨fuel - 1, by omega⟩
    rw [Nat.mul_succ] at h
    obtain ⟨M, hM⟩ : ∃ M, b * q = M := ⟨_, rfl⟩
    rw [hM] at h
    have h1 := loaderNext_full perm ⟨ds, b, sh, false, i, ref⟩
      (show i + b ≤ ds.data.length by omega) (show i < ds.data.length by omega)
    dsimp only [datasetLen] at h1
    have h2 := ih (i + b) f (show ds.data.length - (i + b) = b * q + r by rw [hM]; omega)
      (by omega)
    rw [runLoader_some _ _ _ _ _ h1]
    show ((perm.drop i).take b :: (runLoader perm f ⟨ds, b, sh, false, i + b, ref⟩).1,
          (runLoader perm f ⟨ds, b, sh, false, i + b, ref⟩).2) = _
    rw [h2]
    refine Prod.ext ?_ rfl
    show (perm.drop i).take b :: _ = _
    rw [range_map_succ_shift (fun k => (perm.drop (i + k * b)).take b) q]
    rw [batchFun_shift perm i b b]
    simp only [Nat.zero_mul, Nat.add_zero, List.cons_append]
    congr 3
    ring_nf

/-- A traversal with `drop_last` set, starting at cursor `i` with `b·q + r`
samples remaining (`r < b`), yields exactly the `q` full batches and stops;
the `r` remaining samples are dropped and `batch_size` is untouched. -/
theorem runLoader_drop (perm : List Nat) (ds : GPUTensorDataset) (sh : Bool)
    (ref : Option (List (List ℚ))) (b r : Nat) (hb : 0 < b) (hrb : r < b) :
    ∀ q i fuel, ds.data.length - i = b * q + r → q + 1 ≤ fuel →
      runLoader perm fuel ⟨ds, b, sh, true, i, ref⟩
        = ((List.range q).map (fun k => (perm.drop (i + k * b)).take b),
           ⟨ds, b, sh, true, i + q * b, ref⟩) := by
  intro q
  induction q with
  | zero =>
    intro i fuel h hf
    simp only [Nat.mul_zero, Nat.zero_add] at h
    have hnone : loaderNext perm ⟨ds, b, sh, true, i, ref⟩ = none := by
      by_cases hi : ds.data.length ≤ i
      · exact loaderNext_stop _ _ hi
      · exact loaderNext_dropStop _ _ (show ds.data.length < i + b by omega) rfl
          (show i < ds.data.length by omega)
    rw [runLoader_none _ _ _ hnone]
    simp
  | succ q ih =>
    intro i fuel h hf
    obtain ⟨f, rfl⟩ : ∃ f, fuel = f + 1 := ⟨fuel - 1, by omega⟩
    rw [Nat.mul_succ] at h
    obtain ⟨M, hM⟩ : ∃ M, b * q = M := ⟨_, rfl⟩
    rw [hM] at h
    have h1 := loaderNext_full perm ⟨ds, b, sh, true, i, ref⟩
      (show i + b ≤ ds.data.length by omega) (show i < ds.data.length by omega)
    dsimp only [datasetLen] at h1
    have h2 := ih (i + b) f (show ds.data.length - (i + b) = b * q + r by rw [hM]; omega)
      (by omega)
    rw [runLoader_some _ _ _ _ _ h1]
    show ((perm.drop i).take b :: (runLoader perm f ⟨ds, b, sh, true, i + b, ref⟩).1,
          (runLoader perm f ⟨ds, b, sh, true, i + b, ref⟩).2) = _
    rw [h2]
    refine Prod.ext ?_ ?_
    · show (perm.drop i).take b :: _ = _
      rw [range_map_succ_shift (fun k => (perm.drop (i + k * b)).take b) q]
      rw [batchFun_shift perm i b b]
      simp only [Nat.zero_mul, Nat.add_zero]
    · show GPUDataLoader.mk ds b sh true (i + b + q * b) ref = _
      congr 1
      ring_nf

/-! ### Pixel-permutation lemmas -/

theorem applyPixelPerm_range (row : List ℚ) :
    applyPixelPerm (List.range row.length) row = row := by
  apply List.ext_getElem
  · simp [applyPixelPerm]
  · intro i h1 h2
    simp [applyPixelPerm, List.getD, List.getElem?_eq_getElem h2]

/-- Once a `reference` snapshot `r` exists, every step of `permute_dataset`
permutes `r` itself: the yielded loaders depend only on their own permutation,
never on the previously applied ones. -/
theorem permuteDataset_ref (r : List (List ℚ)) (perms : List (List Nat)) :
    ∀ l : GPUDataLoader, l.reference = some r →
      permuteDataset perms l = perms.map (fun p =>
        { l with dataset := { l.dataset with data := r.map (applyPixelPerm p) }
                 reference := some r }) := by
  induction perms with
  | nil => intro l _; rfl
  | cons p ps ih =>
    intro l h
    show permuteStep p l :: permuteDataset ps (permuteStep p l) = _
    have hstep : permuteStep p l
        = { l with dataset := { l.dataset with data := r.map (applyPixelPerm p) }
                   reference := some r } := by
      simp [permuteStep, h]
    rw [hstep, ih _ rfl]
    rfl

/-! ### Optimizer lemmas -/

theorem tanh_sq_lt_one (x : ℝ) : Real.tanh x ^ 2 < 1 := by
  rw [Real.tanh_eq_sinh_div_cosh, div_pow, div_lt_one (by positivity)]
  nlinarith [Real.cosh_sq x, sq_nonneg (Real.sinh x)]

theorem maxExpAvgSq_mono (β1 β2 g : ℝ) (s : AdamParamState) :
    s.maxExpAvgSq ≤ (momentUpdate true β1 β2 g s).maxExpAvgSq := by
  simp [momentUpdate]

theorem denomOf_mono (β1 β2 eps g : ℝ) (s : AdamParamState) :
    denomOf true eps s ≤ denomOf true eps (momentUpdate true β1 β2 g s) := by
  simp only [denomOf, if_pos]
  exact add_le_add_right (Real.sqrt_le_sqrt (maxExpAvgSq_mono β1 β2 g s)) eps

theorem denomOf_mono_run (β1 β2 eps : ℝ) (gs : List ℝ) :
    ∀ s : AdamParamState,
      denomOf true eps s
        ≤ denomOf true eps (gs.foldl (fun st g => momentUpdate true β1 β2 g st) s) := by
  induction gs with
  | nil => intro s; exact le_refl _
  | cons g gs ih =>
    intro s
    exact le_trans (denomOf_mono β1 β2 eps g s) (ih (momentUpdate true β1 β2 g s))

/-! ### Claims -/

/-- Claim C5: for a Batch Iterator with `drop_last` set over a dataset of 100
samples with batch size 30, one full traversal yields exactly 3 batches whose
indices are 90 pairwise-distinct samples, and then signals end-of-sequence
without yielding a 4th short batch (the 10-sample remainder is dropped). -/
theorem C5_dropLast_traversal (perm : List Nat) (ds : GPUTensorDataset) (sh : Bool)
    (idx : Nat) (ref : Option (List (List ℚ)))
    (hlen : ds.data.length = 100) (hp : perm.length = 100) (hnd : perm.Nodup) :
    (traverseLoader perm ⟨ds, 30, sh, true, idx, ref⟩).1.length = 3
    ∧ (traverseLoader perm ⟨ds, 30, sh, true, idx, ref⟩).1.flatten.length = 90
    ∧ (traverseLoader perm ⟨ds, 30, sh, true, idx, ref⟩).1.flatten.Nodup
    ∧ loaderNext perm (traverseLoader perm ⟨ds, 30, sh, true, idx, ref⟩).2 = none := by
  have htrav : traverseLoader perm ⟨ds, 30, sh, true, idx, ref⟩
      = ((List.range 3).map (fun k => (perm.drop (0 + k * 30)).take 30),
         ⟨ds, 30, sh, true, 0 + 3 * 30, ref⟩) := by
    show runLoader perm (datasetLen ⟨ds, 30, sh, true, idx, ref⟩ + 1)
        ⟨ds, 30, sh, true, 0, ref⟩ = _
    have hds : datasetLen (⟨ds, 30, sh, true, idx, ref⟩ : GPUDataLoader) = 100 := hlen
    rw [hds]
    exact runLoader_drop perm ds sh ref 30 10 (by omega) (by omega) 3 0 101
      (by omega) (by omega)
  have hflat : ((List.range 3).map (fun k => (perm.drop (0 + k * 30)).take 30)).flatten
      = perm.take 90 := by
    rw [show List.range 3 = [0, 1, 2] from rfl]
    simp only [List.map_cons, List.map_nil, List.flatten_cons, List.flatten_nil,
      List.append_nil]
    norm_num
    have e1 : perm.take 90 = perm.take 30 ++ (perm.drop 30).take 60 := by
      have h := List.take_add perm 30 60
      simpa using h
    have e2 : (perm.drop 30).take 60 = (perm.drop 30).take 30 ++ (perm.drop 60).take 30 := by
      have h := List.take_add (perm.drop 30) 30 30
      simpa [List.drop_drop] using h
    rw [e1, e2]
  refine ⟨?_, ?_, ?_, ?_⟩
  · rw [htrav]; simp
  · rw [htrav]
    show ((List.range 3).map (fun k => (perm.drop (0 + k * 30)).take 30)).flatten.length = 90
    rw [hflat, List.length_take, hp]
    omega
  · rw [htrav]
    show ((List.range 3).map (fun k => (perm.drop (0 + k * 30)).take 30)).flatten.Nodup
    rw [hflat]
    exact hnd.sublist (List.take_sublist 90 perm)
  · rw [htrav]
    exact loaderNext_dropStop perm ⟨ds, 30, sh, true, 0 + 3 * 30, ref⟩
      (show ds.data.length < 0 + 3 * 30 + 30 by omega) rfl
      (show 0 + 3 * 30 < ds.data.length by omega)

theorem C5_dropLast_traversal_witness :
    ((⟨List.replicate 100 ([] : List ℚ), List.replicate 100 0⟩ : GPUTensorDataset).data.length
        = 100)
    ∧ (List.range 100).length = 100
    ∧ (List.range 100).Nodup
    ∧ ((traverseLoader (List.range 100)
          ⟨⟨List.replicate 100 [], List.replicate 100 0⟩, 30, true, true, 0, none⟩).1.length = 3
       ∧ (traverseLoader (List.range 100)
          ⟨⟨List.replicate 100 [], List.replicate 100 0⟩, 30, true, true, 0, none⟩).1.flatten.length
            = 90
       ∧ (traverseLoader (List.range 100)
          ⟨⟨List.replicate 100 [], List.replicate 100 0⟩, 30, true, true, 0, none⟩).1.flatten.Nodup
       ∧ loaderNext (List.range 100)
          (traverseLoader (List.range 100)
            ⟨⟨List.replicate 100 [], List.replicate 100 0⟩, 30, true, true, 0, none⟩).2 = none) :=
  ⟨by simp, by simp, List.nodup_range 100,
   C5_dropLast_traversal (List.range 100) ⟨List.replicate 100 [], List.replicate 100 0⟩
     true 0 none (by simp) (by simp) (List.nodup_range 100)⟩

/-- Claim C3, counterexample to restartability: over 5 samples with batch size
2 and `drop_last` unset, the first traversal yields batch sizes 2, 2, 1 — but
the shrunk size 1 permanently overwrites `batch_size`, so a second traversal
yields batch sizes 1, 1, 1, 1, 1 rather than the same sequence again. -/
theorem C3_restart_counterexample :
    (traverseLoader [0, 1, 2, 3, 4]
        ⟨⟨List.replicate 5 [], List.replicate 5 0⟩, 2, false, false, 0, none⟩).1.map
        List.length = [2, 2, 1]
    ∧ ((traverseLoader [0, 1, 2, 3, 4]
        (traverseLoader [0, 1, 2, 3, 4]
          ⟨⟨List.replicate 5 [], List.replicate 5 0⟩, 2, false, false, 0, none⟩).2).1.map
        List.length = [1, 1, 1, 1, 1])
    ∧ ¬ ((traverseLoader [0, 1, 2, 3, 4]
        (traverseLoader [0, 1, 2, 3, 4]
          ⟨⟨List.replicate 5 [], List.replicate 5 0⟩, 2, false, false, 0, none⟩).2).1.map
        List.length
        = (traverseLoader [0, 1, 2, 3, 4]
            ⟨⟨List.replicate 5 [], List.replicate 5 0⟩, 2, false, false, 0, none⟩).1.map
            List.length) := by
  decide

/-- Claim C3 (amended): with `drop_last` unset and dataset size `N` not a
multiple of the batch size `b`, a traversal yields `N / b` full batches of
size `b`, then exactly one shrunk batch of size `N % b`, then signals
end-of-sequence; but the shrunk size persists as the iterator's `batch_size`
(= `N % b`), so a new traversal afterwards yields the batch-size sequence
determined by batch size `N % b` instead — its first batch already has size
`N % b ≠ b`. -/
theorem C3_noDrop_traversal (perm : List Nat) (ds : GPUTensorDataset) (sh : Bool)
    (idx : Nat) (ref : Option (List (List ℚ))) (b : Nat) (hb : 0 < b)
    (hmod : ds.data.length % b ≠ 0) (hp : perm.length = ds.data.length) :
    (traverseLoader perm ⟨ds, b, sh, false, idx, ref⟩).1.map List.length
      = List.replicate (ds.data.length / b) b ++ [ds.data.length % b]
    ∧ loaderNext perm (traverseLoader perm ⟨ds, b, sh, false, idx, ref⟩).2 = none
    ∧ (traverseLoader perm ⟨ds, b, sh, false, idx, ref⟩).2.batchSize = ds.data.length % b
    ∧ ((traverseLoader perm (traverseLoader perm ⟨ds, b, sh, false, idx, ref⟩).2).1.map
        List.length).head? = some (ds.data.length % b)
    ∧ ds.data.length % b ≠ b := by
  have hqr := Nat.div_add_mod ds.data.length b
  have hrb : ds.data.length % b < b := Nat.mod_lt _ hb
  have hr : 0 < ds.data.length % b := Nat.pos_of_ne_zero hmod
  have hfa : ds.data.length / b ≤ ds.data.length / b * b :=
    Nat.le_mul_of_pos_right _ hb
  have hfb : ds.data.length / b * b = b * (ds.data.length / b) := Nat.mul_comm _ _
  have htrav : traverseLoader perm ⟨ds, b, sh, false, idx, ref⟩
      = ((List.range (ds.data.length / b)).map (fun k => (perm.drop (0 + k * b)).take b)
           ++ [(perm.drop (0 + ds.data.length / b * b)).take (ds.data.length % b)],
         ⟨ds, ds.data.length % b, sh, false, ds.data.length, ref⟩) := by
    show runLoader perm (datasetLen ⟨ds, b, sh, false, idx, ref⟩ + 1)
        ⟨ds, b, sh, false, 0, ref⟩ = _
    exact runLoader_noDrop perm ds sh ref b (ds.data.length % b) hr hrb
      (ds.data.length / b) 0 (ds.data.length + 1) (by omega) (by omega)
  refine ⟨?_, ?_, ?_, ?_, by omega⟩
  · rw [htrav]
    show ((List.range (ds.data.length / b)).map (fun k => (perm.drop (0 + k * b)).take b)
           ++ [(perm.drop (0 + ds.data.length / b * b)).take (ds.data.length % b)]).map
        List.length = _
    rw [List.map_append, List.map_map]
    congr 1
    · apply List.eq_replicate_iff.2
      refine ⟨by simp, ?_⟩
      intro x hx
      rw [List.mem_map] at hx
      obtain ⟨k, hk, rfl⟩ := hx
      rw [List.mem_range] at hk
      show ((perm.drop (0 + k * b)).take b).length = b
      rw [List.length_take, List.length_drop, hp]
      have h3 : (k + 1) * b ≤ ds.data.length / b * b := Nat.mul_le_mul_right b hk
      have h4 : (k + 1) * b = k * b + b := Nat.succ_mul k b
      omega
    · show [((perm.drop (0 + ds.data.length / b * b)).take (ds.data.length % b)).length] = _
      rw [List.length_take, List.length_drop, hp]
      congr 1
      omega
  · rw [htrav]
    exact loaderNext_stop perm ⟨ds, ds.data.length % b, sh, false, ds.data.length, ref⟩
      (le_refl _)
  · rw [htrav]
  · rw [htrav]
    show ((runLoader perm (datasetLen ⟨ds, ds.data.length % b, sh, false, ds.data.length, ref⟩
          + 1) ⟨ds, ds.data.length % b, sh, false, 0, ref⟩).1.map List.length).head? = _
    have h1 := loaderNext_full perm ⟨ds, ds.data.length % b, sh, false, 0, ref⟩
      (show 0 + ds.data.length % b ≤ ds.data.length by omega)
      (show 0 < ds.data.length by omega)
    dsimp only [datasetLen] at h1 ⊢
    rw [runLoader_some _ _ _ _ _ h1]
    simp only [List.map_cons, List.head?_cons]
    rw [List.length_take, List.length_drop, hp]
    congr 1
    omega

theorem C3_noDrop_traversal_witness :
    0 < 2
    ∧ (⟨List.replicate 5 ([] : List ℚ), List.replicate 5 0⟩ :
        GPUTensorDataset).data.length % 2 ≠ 0
    ∧ ([0, 1, 2, 3, 4] : List Nat).length
        = (⟨List.replicate 5 ([] : List ℚ), List.replicate 5 0⟩ :
            GPUTensorDataset).data.length
    ∧ ((traverseLoader [0, 1, 2, 3, 4]
          ⟨⟨List.replicate 5 [], List.replicate 5 0⟩, 2, false, false, 0, none⟩).1.map
          List.length = [2, 2, 1]
       ∧ loaderNext [0, 1, 2, 3, 4]
          (traverseLoader [0, 1, 2, 3, 4]
            ⟨⟨List.replicate 5 [], List.replicate 5 0⟩, 2, false, false, 0, none⟩).2 = none
       ∧ (traverseLoader [0, 1, 2, 3, 4]
          ⟨⟨List.replicate 5 [], List.replicate 5 0⟩, 2, false, false, 0, none⟩).2.batchSize
          = 1
       ∧ ((traverseLoader [0, 1, 2, 3, 4]
            (traverseLoader [0, 1, 2, 3, 4]
              ⟨⟨List.replicate 5 [], List.replicate 5 0⟩, 2, false, false, 0, none⟩).2).1.map
            List.length).head? = some 1
       ∧ (1 : Nat) ≠ 2) :=
  ⟨by decide, by decide, by decide,
   C3_noDrop_traversal [0, 1, 2, 3, 4] ⟨List.replicate 5 [], List.replicate 5 0⟩
     false 0 none 2 (by decide) (by decide) (by decide)⟩

/-- Claim C10: the reported number of batches (`__len__`) is
`len(dataset) // batch_size` for every loader, regardless of the `drop_last`
flag; consequently, with `drop_last` unset and dataset size not a multiple of
the batch size, the reported length is one less than the number of batches a
traversal actually yields. -/
theorem C10_len_vs_yield (l : GPUDataLoader) (perm : List Nat) (hb : 0 < l.batchSize)
    (hmod : datasetLen l % l.batchSize ≠ 0) (hdl : l.dropLast = false)
    (hp : perm.length = datasetLen l) :
    (∀ lAny : GPUDataLoader, loaderLen lAny = datasetLen lAny / lAny.batchSize)
    ∧ (traverseLoader perm l).1.length = loaderLen l + 1 := by
  obtain ⟨ds, b, sh, dl, idx, ref⟩ := l
  subst hdl
  dsimp only [datasetLen] at hmod hp hb ⊢
  refine ⟨fun _ => rfl, ?_⟩
  have hqr := Nat.div_add_mod ds.data.length b
  have hrb : ds.data.length % b < b := Nat.mod_lt _ hb
  have hr : 0 < ds.data.length % b := Nat.pos_of_ne_zero hmod
  have hfa : ds.data.length / b ≤ ds.data.length / b * b :=
    Nat.le_mul_of_pos_right _ hb
  have hfb : ds.data.length / b * b = b * (ds.data.length / b) := Nat.mul_comm _ _
  have htrav : traverseLoader perm ⟨ds, b, sh, false, idx, ref⟩
      = ((List.range (ds.data.length / b)).map (fun k => (perm.drop (0 + k * b)).take b)
           ++ [(perm.drop (0 + ds.data.length / b * b)).take (ds.data.length % b)],
         ⟨ds, ds.data.length % b, sh, false, ds.data.length, ref⟩) := by
    show runLoader perm (datasetLen ⟨ds, b, sh, false, idx, ref⟩ + 1)
        ⟨ds, b, sh, false, 0, ref⟩ = _
    exact runLoader_noDrop perm ds sh ref b (ds.data.length % b) hr hrb
      (ds.data.length / b) 0 (ds.data.length + 1) (by omega) (by omega)
  rw [htrav]
  show ((List.range (ds.data.length / b)).map (fun k => (perm.drop (0 + k * b)).take b)
         ++ [(perm.drop (0 + ds.data.length / b * b)).take (ds.data.length % b)]).length
      = ds.data.length / b + 1
  simp [loaderLen]

theorem C10_len_vs_yield_witness :
    0 < (⟨⟨List.replicate 5 ([] : List ℚ), List.replicate 5 0⟩, 2, false, false, 0, none⟩ :
          GPUDataLoader).batchSize
    ∧ datasetLen ⟨⟨List.replicate 5 [], List.replicate 5 0⟩, 2, false, false, 0, none⟩ % 2 ≠ 0
    ∧ (⟨⟨List.replicate 5 [], List.replicate 5 0⟩, 2, false, false, 0, none⟩ :
        GPUDataLoader).dropLast = false
    ∧ ([4, 3, 2, 1, 0] : List Nat).length
        = datasetLen ⟨⟨List.replicate 5 [], List.replicate 5 0⟩, 2, false, false, 0, none⟩
    ∧ ((∀ lAny : GPUDataLoader, loaderLen lAny = datasetLen lAny / lAny.batchSize)
       ∧ (traverseLoader [4, 3, 2, 1, 0]
            ⟨⟨List.replicate 5 [], List.replicate 5 0⟩, 2, false, false, 0, none⟩).1.length
          = loaderLen ⟨⟨List.replicate 5 [], List.replicate 5 0⟩, 2, false, false, 0, none⟩
            + 1) :=
  ⟨by decide, by decide, by decide, by decide,
   C10_len_vs_yield ⟨⟨List.replicate 5 [], List.replicate 5 0⟩, 2, false, false, 0, none⟩
     [4, 3, 2, 1, 0] (by decide) (by decide) (by decide) (by decide)⟩

/-- Claim C6: applying `apply_pixel_permutation` with the identity permutation
leaves the dataset's features numerically unchanged; more generally each step
of the lazy permutation sequence first rewinds the dataset's features to the
untransformed reference before applying its own permutation, so successive
permutations never compose with one another (every yielded loader carries the
original data permuted by its own permutation alone). -/
theorem C6_pixel_permutation_no_compose (l : GPUDataLoader) (href : l.reference = none)
    (n : Nat) (hrows : ∀ row ∈ l.dataset.data, row.length = n) (perms : List (List Nat)) :
    permuteDataset perms l = perms.map (fun p =>
      { l with dataset := { l.dataset with data := l.dataset.data.map (applyPixelPerm p) }
               reference := some l.dataset.data })
    ∧ (permuteDataset [List.range n] l).map (fun lp => lp.dataset.data)
        = [l.dataset.data] := by
  have hgen : ∀ ps : List (List Nat), permuteDataset ps l = ps.map (fun p =>
      { l with dataset := { l.dataset with data := l.dataset.data.map (applyPixelPerm p) }
               reference := some l.dataset.data }) := by
    intro ps
    cases ps with
    | nil => rfl
    | cons p ps =>
      show permuteStep p l :: permuteDataset ps (permuteStep p l) = _
      have hstep : permuteStep p l
          = { l with
              dataset := { l.dataset with data := l.dataset.data.map (applyPixelPerm p) }
              reference := some l.dataset.data } := by
        simp [permuteStep, href]
      rw [hstep, permuteDataset_ref l.dataset.data ps _ rfl]
      rfl
  refine ⟨hgen perms, ?_⟩
  rw [hgen [List.range n]]
  simp only [List.map_cons, List.map_nil]
  congr 1
  have hid : ∀ row ∈ l.dataset.data, applyPixelPerm (List.range n) row = row := by
    intro row hrow
    rw [← hrows row hrow]
    exact applyPixelPerm_range row
  have h2 := List.map_congr_left (g := id) hid
  simpa using h2

theorem C6_pixel_permutation_no_compose_witness :
    (⟨⟨[[1, 2], [3, 4]], [0, 1]⟩, 1, false, false, 0, none⟩ :
        GPUDataLoader).reference = none
    ∧ (∀ row ∈ (⟨⟨[[1, 2], [3, 4]], [0, 1]⟩, 1, false, false, 0, none⟩ :
        GPUDataLoader).dataset.data, row.length = 2)
    ∧ (permuteDataset [[1, 0]] ⟨⟨[[1, 2], [3, 4]], [0, 1]⟩, 1, false, false, 0, none⟩
        = [⟨⟨[[2, 1], [4, 3]], [0, 1]⟩, 1, false, false, 0, some [[1, 2], [3, 4]]⟩]
       ∧ (permuteDataset [List.range 2]
            ⟨⟨[[1, 2], [3, 4]], [0, 1]⟩, 1, false, false, 0, none⟩).map
          (fun lp => lp.dataset.data) = [[[1, 2], [3, 4]]]) :=
  ⟨rfl, by decide,
   C6_pixel_permutation_no_compose
     ⟨⟨[[1, 2], [3, 4]], [0, 1]⟩, 1, false, false, 0, none⟩ rfl 2 (by decide) [[1, 0]]⟩

/-- Claim C2: `class_incremental_dataset(n_tasks)` does yield a lazy sequence
of exactly `n_tasks` steps (after restoring the dataset from the saved
reference), but it never restricts the dataset to the i-th contiguous label
block: the selection code is missing from the source (an orphan comment stands
where it should be, contradicting the docstring), so every step still carries
every sample.  Evaluated on a 2-sample dataset with labels 0 and 1 and
`n_tasks = 2`: both steps keep both labels, where the claim requires the first
step to hold only samples of label 0. -/
theorem C2_class_incremental_eval :
    (classIncrementalDataset 2 ⟨⟨[[1], [2]], [0, 1]⟩, 1, false, false, 0, none⟩).length = 2
    ∧ (classIncrementalDataset 2 ⟨⟨[[1], [2]], [0, 1]⟩, 1, false, false, 0, none⟩).map
        (fun lp => lp.dataset.targets) = [[0, 1], [0, 1]]
    ∧ (classIncrementalDataset 2 ⟨⟨[[1], [2]], [0, 1]⟩, 1, false, false, 0, none⟩).map
        (fun lp => lp.dataset.data) = [[[1], [2]], [[1], [2]]] := by
  decide

/-- Forward-pass collaborator that just returns the substituted parameter
vector; it makes the parameter substitution of `predict` observable. -/
def paramsForward : List ℚ → List ℚ → List ℚ := fun params _ => params

/-- Claim C4, counterexample at the boundary: `predict` with `n_samples = 0`
maps a zero component of `mu` to 0 (the source tests `mu <= 0`), hence to
binarized −1, whereas the claim says a zero component maps to 1, hence to +1.
With the parameter-revealing forward pass and `mu = [0]` the single prediction
is `[-1]`, not `[1]`. -/
theorem C4_map_boundary_counterexample :
    bayesPredict paramsForward [] [0] [37] 0 = [[-1]]
    ∧ ¬ bayesPredict paramsForward [] [0] [37] 0 = [[1]] := by
  refine ⟨?_, ?_⟩ <;> norm_num [bayesPredict, paramsForward]

/-- Claim C4 (amended): `predict` with `n_samples = 0` returns exactly one
prediction, computed not from the sampled lambda draws but from the sign of
the posterior mean `mu`: each positive component maps to 1 and each
zero-or-negative component maps to 0, then the {0,1} vector is mapped to
{−1,+1} and substituted into the model for one forward pass. -/
theorem C4_predict_zero_samples (F : List ℚ → List ℚ → List ℚ)
    (lambdaSamples lambdaSamples' : List (List ℚ)) (mu inputs : List ℚ) :
    (bayesPredict F lambdaSamples mu inputs 0).length = 1
    ∧ bayesPredict F lambdaSamples mu inputs 0
        = [F ((mu.map (fun m => if m ≤ 0 then (0 : ℚ) else 1)).map (fun x => 2 * x - 1))
            inputs]
    ∧ bayesPredict F lambdaSamples mu inputs 0
        = bayesPredict F lambdaSamples' mu inputs 0 := by
  refine ⟨?_, ?_, ?_⟩ <;> simp [bayesPredict]

/-- Claim C9: constructing the Bayesian trainer fails with a configuration
error — raised before any other initialization, in particular before the
base-class constructor runs — whenever the training parameters do not contain
a `test_mcmc_samples` value; when the value is present, construction stores it
and proceeds. -/
theorem C9_bayes_init (tp : List (String × Nat)) :
    (tp.lookup "test_mcmc_samples" = none →
      bayesTrainerInit tp = Except.error
        "BayesTrainer needs test_mcmc_samples to be defined in training_parameters")
    ∧ ∀ v, tp.lookup "test_mcmc_samples" = some v → bayesTrainerInit tp = Except.ok v := by
  constructor
  · intro h
    simp [bayesTrainerInit, h]
  · intro v h
    simp [bayesTrainerInit, h]

theorem C9_bayes_init_witness :
    ([("mcmc", 3)] : List (String × Nat)).lookup "test_mcmc_samples" = none
    ∧ bayesTrainerInit [("mcmc", 3)] = Except.error
        "BayesTrainer needs test_mcmc_samples to be defined in training_parameters"
    ∧ ([("test_mcmc_samples", 7)] : List (String × Nat)).lookup "test_mcmc_samples" = some 7
    ∧ bayesTrainerInit [("test_mcmc_samples", 7)] = Except.ok 7 :=
  ⟨rfl, (C9_bayes_init [("mcmc", 3)]).1 rfl, rfl,
   (C9_bayes_init [("test_mcmc_samples", 7)]).2 7 rfl⟩

/-- Claim C7: with the AMS variant enabled, the denominator used in the update
is `sqrt(max(max_exp_avg_sq, exp_avg_sq)) + eps` (with the freshly updated
`exp_avg_sq`), `max_exp_avg_sq` never decreases across `step()` calls, and the
denominator is component-wise monotone non-decreasing over one call and over
any run of successive calls; with AMS disabled the denominator is
`sqrt(exp_avg_sq) + eps`. -/
theorem C7_ams_denominator (β1 β2 eps g : ℝ) (s : AdamParamState) (gs : List ℝ) :
    (momentUpdate true β1 β2 g s).maxExpAvgSq
        = max s.maxExpAvgSq (momentUpdate true β1 β2 g s).expAvgSq
    ∧ denomOf true eps (momentUpdate true β1 β2 g s)
        = Real.sqrt (max s.maxExpAvgSq (momentUpdate true β1 β2 g s).expAvgSq) + eps
    ∧ s.maxExpAvgSq ≤ (momentUpdate true β1 β2 g s).maxExpAvgSq
    ∧ denomOf true eps s ≤ denomOf true eps (momentUpdate true β1 β2 g s)
    ∧ denomOf true eps s
        ≤ denomOf true eps (gs.foldl (fun st gg => momentUpdate true β1 β2 gg st) s)
    ∧ denomOf false eps s = Real.sqrt s.expAvgSq + eps :=
  ⟨rfl, rfl, maxExpAvgSq_mono β1 β2 g s, denomOf_mono β1 β2 eps g s,
   denomOf_mono_run β1 β2 eps gs s, rfl⟩

/-- Claim C8: construction of the metaplastic optimizer fails if and only if a
hyperparameter is out of range — it fails exactly when `lr < 0`, `eps < 0`,
`β1` outside [0, 1) or `β2` outside [0, 1); in particular it fails for
`lr = -1`, `eps = -1`, `betas = (1, 1/2)` and `betas = (1/2, 1)`, and succeeds
when all four constraints hold (default-style hyperparameters shown). -/
theorem C8_init_validation :
    (∀ lr β1 β2 eps : ℚ, metaplasticAdamInitOk lr β1 β2 eps = true
        ↔ (0 ≤ lr ∧ 0 ≤ eps ∧ 0 ≤ β1 ∧ β1 < 1 ∧ 0 ≤ β2 ∧ β2 < 1))
    ∧ metaplasticAdamInitOk (-1) (9/10) (999/1000) (1/100000000) = false
    ∧ metaplasticAdamInitOk (1/1000) (9/10) (999/1000) (-1) = false
    ∧ metaplasticAdamInitOk (1/1000) 1 (1/2) (1/100000000) = false
    ∧ metaplasticAdamInitOk (1/1000) (1/2) 1 (1/100000000) = false
    ∧ metaplasticAdamInitOk (1/1000) (9/10) (999/1000) (1/100000000) = true := by
  refine ⟨?_, by norm_num [metaplasticAdamInitOk, metaplasticAdamInit],
    by norm_num [metaplasticAdamInitOk, metaplasticAdamInit],
    by norm_num [metaplasticAdamInitOk, metaplasticAdamInit],
    by norm_num [metaplasticAdamInitOk, metaplasticAdamInit],
    by norm_num [metaplasticAdamInitOk, metaplasticAdamInit]⟩
  intro lr β1 β2 eps
  unfold metaplasticAdamInitOk metaplasticAdamInit
  split_ifs with h1 h2 h3 h4 <;> simp_all

/-- Claim C1: inside every `step()` call on a dense-gradient parameter, the
parameter update is `metaplasticUpdate` at the freshly updated momentum and
denominator; a one-dimensional parameter (bias) always receives the plain
update `p − step_size·exp_avg/denom`; for a multi-dimensional parameter, where
`sign(p)·exp_avg > 0` the applied momentum is `exp_avg` scaled by
`1 − tanh(metaplasticity·|p|)²` — a factor in [0, 1], so the applied momentum
magnitude is at most the raw `exp_avg` magnitude — and where
`sign(p)·exp_avg ≤ 0` the raw `exp_avg` is used exactly, unshrunk. -/
theorem C1_metaplastic_consolidation (dim : Nat) (amsgrad : Bool)
    (lr β1 β2 eps weightDecay metaplasticity g p ea d ss : ℝ) (s : AdamParamState) :
    (stepElem dim amsgrad lr β1 β2 eps weightDecay metaplasticity g p s).1
      = metaplasticUpdate dim metaplasticity
          (stepSizeOf lr β1 β2
            (momentUpdate amsgrad β1 β2
              (if weightDecay = 0 then g else g + weightDecay * p) s).step)
          (denomOf amsgrad eps
            (momentUpdate amsgrad β1 β2
              (if weightDecay = 0 then g else g + weightDecay * p) s))
          p
          (momentUpdate amsgrad β1 β2
            (if weightDecay = 0 then g else g + weightDecay * p) s).expAvg
    ∧ (dim = 1 → metaplasticUpdate dim metaplasticity ss d p ea = p - ss * ea / d)
    ∧ (1 < dim → 0 < Real.sign p * ea →
        metaplasticUpdate dim metaplasticity ss d p ea
          = p - ss * ((1 - Real.tanh (metaplasticity * |p|) ^ 2) * ea) / d
        ∧ 0 ≤ 1 - Real.tanh (metaplasticity * |p|) ^ 2
        ∧ 1 - Real.tanh (metaplasticity * |p|) ^ 2 ≤ 1
        ∧ |(1 - Real.tanh (metaplasticity * |p|) ^ 2) * ea| ≤ |ea|)
    ∧ (1 < dim → Real.sign p * ea ≤ 0 →
        metaplasticUpdate dim metaplasticity ss d p ea = p - ss * ea / d) := by
  refine ⟨rfl, ?_, ?_, ?_⟩
  · intro h1
    simp [metaplasticUpdate, h1]
  · intro hdim hsign
    have hne : dim ≠ 1 := by omega
    have ht : Real.tanh (metaplasticity * |p|) ^ 2 < 1 := tanh_sq_lt_one _
    have ht0 : 0 ≤ Real.tanh (metaplasticity * |p|) ^ 2 := sq_nonneg _
    refine ⟨?_, by linarith, by linarith, ?_⟩
    · simp [metaplasticUpdate, hne, appliedMomentum, hsign]
    · rw [abs_mul]
      have h1 : |1 - Real.tanh (metaplasticity * |p|) ^ 2| ≤ 1 := by
        rw [abs_of_nonneg (by linarith)]
        linarith
      calc |1 - Real.tanh (metaplasticity * |p|) ^ 2| * |ea| ≤ 1 * |ea| :=
            mul_le_mul_of_nonneg_right h1 (abs_nonneg ea)
        _ = |ea| := one_mul _
  · intro hdim hsign
    have hne : dim ≠ 1 := by omega
    have hnot : ¬ 0 < Real.sign p * ea := not_lt.2 hsign
    simp [metaplasticUpdate, hne, appliedMomentum, hnot]

theorem C1_metaplastic_consolidation_witness :
    (1 : Nat) < 2
    ∧ (0 : ℝ) < Real.sign 1 * 1
    ∧ (metaplasticUpdate 2 1 1 1 1 1
         = 1 - 1 * ((1 - Real.tanh (1 * |(1 : ℝ)|) ^ 2) * 1) / 1
       ∧ 0 ≤ 1 - Real.tanh (1 * |(1 : ℝ)|) ^ 2
       ∧ 1 - Real.tanh (1 * |(1 : ℝ)|) ^ 2 ≤ 1
       ∧ |(1 - Real.tanh (1 * |(1 : ℝ)|) ^ 2) * 1| ≤ |(1 : ℝ)|) := by
  refine ⟨by norm_num, ?_, ?_⟩
  · rw [Real.sign_one]
    norm_num
  · exact (C1_metaplastic_consolidation 2 false 1 1 1 1 1 1 1 1 1 1 1 initAdamState).2.2.1
      (by norm_num) (by rw [Real.sign_one]; norm_num)
